import Mathlib

/-!
Verification of the credential-hashing and token-issuance core of the
repository (`app/core/security.py`).

The Python source delegates to two libraries and one missing module:

* `passlib.context.CryptContext(schemes=["argon2"])` supplies the argon2
  password hash.  The key-derivation function itself is outside the
  repository, so it is modelled from the spec as an idealized KDF: an
  executable injective function of `(salt, password)`.  Injectivity stands
  in for the spec's "false-positive rate negligible, cryptographically
  bounded"; the modular-crypt wire format (`$argon2id$...$salt$digest`) is
  kept, with the cost parameters fixed at argon2's defaults, since the spec
  only needs a recognizable, parseable encoding.  The salt, drawn from a
  cryptographically secure random source per call in the real code, is an
  explicit parameter here; drawn salts are base64 text, hence contain no
  `$` separator, which appears below as a hypothesis on salts.
* `jose.jwt.encode` serializes and signs the claims.  It is modelled from
  the spec as an injective three-part encoding (header, claims payload,
  signature over the payload with the secret key) together with the
  symmetric decoder; base64url/JSON details are replaced by an executable
  length-prefixed encoding with a proven round trip, which is all the spec
  asks of the wire format (self-contained and decodable).
* `app.core.config.settings` is not part of this fragment.  It is modelled
  from the spec (§3, §6) as an immutable record of secret key, algorithm
  name and the two positive lifetime settings, and per the spec an absent
  or empty secret key is a fatal `SigningConfigError` at issuance.

Time is modelled at second resolution: the source stores
`iat = int(now.timestamp())` and the `exp` datetime is serialized by the
JOSE layer at second resolution, so for the whole-second lifetimes used
here (`timedelta(minutes=m)` = `m*60` s, `timedelta(days=d)` = `d*86400` s)
a token issued at second `now` carries `iat = now`, `exp = now + lifetime`.
-/

/-- Error raised when a stored hash string is not a recognized encoding
(the spec's `MalformedHashError`, §7). -/
inductive HashError where
  | MalformedHashError
deriving DecidableEq

/-- Error raised at issuance when the signing secret key is absent or empty
(the spec's `SigningConfigError`, §7). -/
inductive SignError where
  | SigningConfigError
deriving DecidableEq

/-- Modelled from the spec: the process-wide signing configuration that the
missing `app.core.config` module loads at startup (secret key, algorithm
identifier, access-token lifetime in minutes, refresh-token lifetime in
days). -/
structure Settings where
  JWT_SECRET_KEY : String
  JWT_ALG : String
  ACCESS_TOKEN_MINUTES : Nat
  REFRESH_TOKEN_DAYS : Nat

/-- The claims record built by `create_token`:
`{"sub": sub, "type": token_type, "iat": int(now.timestamp()), "exp": now + expires_delta}`,
with both timestamps at second resolution (see the module comment). -/
structure Claims where
  sub : String
  type : String
  iat : Nat
  exp : Int
deriving DecidableEq

/-- Modelled from the spec: idealized argon2 key derivation.  The real
memory-hard KDF lives in the passlib/argon2 library, outside the
repository; the ideal model is any injective executable function of salt
and password, collision-freedom standing in for the cryptographically
negligible false-positive rate of §8.2. -/
def argon2 (salt password : String) : String :=
  salt ++ "|" ++ password

/-- Modular-crypt-format tag under which passlib emits and recognizes
argon2 hashes (cost parameters fixed at the defaults). -/
def mcfTag : List Char :=
  "$argon2id$v=19$m=65536,t=3,p=4$".data

/-- Assemble a self-describing hash string: tag, salt field, `$`, digest. -/
def hashString (salt digest : String) : String :=
  ⟨mcfTag ++ salt.data ++ '$' :: digest.data⟩

/-- `hash_password(password)` from `security.py`: derive a digest from a
fresh random salt and the password and emit the self-describing hash
string.  The salt drawn by the library is the explicit `salt` argument. -/
def hash_password (password : String) (salt : String) : String :=
  hashString salt (argon2 salt password)

/-- Split a character list at the first occurrence of `sep`; `none` when
`sep` does not occur. -/
def splitFirst (sep : Char) : List Char → Option (List Char × List Char)
  | [] => none
  | c :: cs =>
    if c = sep then some ([], cs)
    else
      match splitFirst sep cs with
      | some p => some (c :: p.1, p.2)
      | none => none

/-- Parse a stored hash string: recognize the argon2 tag, then read the
salt field up to the `$` separator, the digest being the remainder.
`none` means the string is not a recognized encoding. -/
def parseHash (h : String) : Option (String × String) :=
  if h.data.take mcfTag.length = mcfTag then
    match splitFirst '$' (h.data.drop mcfTag.length) with
    | some p => some (⟨p.1⟩, ⟨p.2⟩)
    | none => none
  else none

/-- A hash string in a recognized encoding: one the parser accepts. -/
def WellFormedHash (h : String) : Prop :=
  (parseHash h).isSome

instance (h : String) : Decidable (WellFormedHash h) := by
  unfold WellFormedHash
  infer_instance

/-- `verify_password(password, hashed)` from `security.py`: recompute the
digest from the salt and parameters embedded in the stored string and
compare.  A mismatch is the boolean `false`; an unrecognized encoding is
the error `MalformedHashError` (the spec allows either an error or
`false` there, and passlib raises). -/
def verify_password (password : String) (hashed : String) : Except HashError Bool :=
  match parseHash hashed with
  | some p => .ok (decide (argon2 p.1 password = p.2))
  | none => .error .MalformedHashError

/-- Count the leading run of the character `c`, returning its length and
the remainder of the list. -/
def takeRepl (c : Char) : List Char → Nat × List Char
  | [] => (0, [])
  | x :: xs =>
    if x = c then
      let p := takeRepl c xs
      (p.1 + 1, p.2)
    else (0, x :: xs)

/-- Length-prefixed encoding of an arbitrary string field inside the token
wire format (stands in for JSON-quoting plus base64url, which the spec only
requires to be injective and decodable). -/
def fieldEnc (s : List Char) : List Char :=
  List.replicate s.length 'L' ++ '.' :: s

/-- Decoder for `fieldEnc`: read the length run, the separator, then the
field, returning the field and the remainder. -/
def fieldDec (l : List Char) : Option (List Char × List Char) :=
  match takeRepl 'L' l with
  | (n, '.' :: rest) =>
    if n ≤ rest.length then some (rest.take n, rest.drop n) else none
  | _ => none

/-- Encoding of a natural-number claim value inside the token wire format. -/
def natEnc (n : Nat) : List Char :=
  List.replicate n 'x' ++ ['.']

/-- Decoder for `natEnc`. -/
def natDec (l : List Char) : Option (Nat × List Char) :=
  match takeRepl 'x' l with
  | (n, '.' :: rest) => some (n, rest)
  | _ => none

/-- Encoding of an integer claim value inside the token wire format. -/
def intEnc : Int → List Char
  | .ofNat n => '+' :: natEnc n
  | .negSucc n => '-' :: natEnc n

/-- Decoder for `intEnc`. -/
def intDec : List Char → Option (Int × List Char)
  | '+' :: l => (natDec l).map (fun p => ((p.1 : Int), p.2))
  | '-' :: l => (natDec l).map (fun p => (Int.negSucc p.1, p.2))
  | _ => none

/-- Serialization of the claims payload: the four claim fields in order. -/
def claimsEnc (c : Claims) : List Char :=
  fieldEnc c.sub.data ++ fieldEnc c.type.data ++ natEnc c.iat ++ intEnc c.exp

/-- Decoder for `claimsEnc`. -/
def claimsDec (l : List Char) : Option (Claims × List Char) := do
  let (sub, r1) ← fieldDec l
  let (ty, r2) ← fieldDec r1
  let (iat, r3) ← natDec r2
  let (exp, r4) ← intDec r3
  pure (⟨⟨sub⟩, ⟨ty⟩, iat, exp⟩, r4)

/-- Modelled from the spec: `jose.jwt.encode(payload, key, algorithm)`.
Produces the three-part token: header carrying the algorithm, the claims
payload, and a signature binding the secret key to the payload.  Per the
spec (§4.2, §7) an absent or empty secret key is a `SigningConfigError`
rather than a token with an empty signature. -/
def jwtEncode (payload : Claims) (key : String) (alg : String) : Except SignError String :=
  if key = "" then .error .SigningConfigError
  else .ok ⟨fieldEnc alg.data ++ claimsEnc payload ++ fieldEnc key.data ++ claimsEnc payload⟩

/-- Modelled from the spec: the symmetric decode of a token with the
correct secret key — parse header, claims and signature, and accept only
when the algorithm matches and the signature is the one the key produces
over this payload. -/
def jwtDecode (token : String) (key : String) (alg : String) : Option Claims := do
  let (a, r1) ← fieldDec token.data
  let (c, r2) ← claimsDec r1
  let (k, r3) ← fieldDec r2
  let (c2, r4) ← claimsDec r3
  if a = alg.data ∧ k = key.data ∧ c2 = c ∧ r4 = [] then pure c else none

/-- `create_token(sub, token_type, expires_delta)` from `security.py`:
build the claims record at the current second `now` and sign it with the
configured secret key and algorithm.  `expires_delta` is the lifetime in
whole seconds. -/
def create_token (settings : Settings) (now : Nat) (sub : String) (token_type : String)
    (expires_delta : Int) : Except SignError String :=
  jwtEncode { sub := sub, type := token_type, iat := now, exp := (now : Int) + expires_delta }
    settings.JWT_SECRET_KEY settings.JWT_ALG

/-- `create_access_token(sub)` from `security.py`:
`create_token(sub, "access", timedelta(minutes=settings.ACCESS_TOKEN_MINUTES))`,
with `timedelta(minutes=m)` lasting `m * 60` seconds. -/
def create_access_token (settings : Settings) (now : Nat) (sub : String) : Except SignError String :=
  create_token settings now sub "access" ((settings.ACCESS_TOKEN_MINUTES : Int) * 60)

/-- `create_refresh_token(sub)` from `security.py`:
`create_token(sub, "refresh", timedelta(days=settings.REFRESH_TOKEN_DAYS))`,
with `timedelta(days=d)` lasting `d * 86400` seconds. -/
def create_refresh_token (settings : Settings) (now : Nat) (sub : String) : Except SignError String :=
  create_token settings now sub "refresh" ((settings.REFRESH_TOKEN_DAYS : Int) * 86400)

/-- Written from the spec's words for the refinement claim: the access
wrapper is exactly `create_token` with the kind fixed to `"access"` and the
lifetime fixed to the configured access duration. -/
def access_token_spec (settings : Settings) (now : Nat) (sub : String) : Except SignError String :=
  create_token settings now sub "access" ((settings.ACCESS_TOKEN_MINUTES : Int) * 60)

/-- Written from the spec's words for the refinement claim: the refresh
wrapper is exactly `create_token` with the kind fixed to `"refresh"` and
the lifetime fixed to the configured refresh duration. -/
def refresh_token_spec (settings : Settings) (now : Nat) (sub : String) : Except SignError String :=
  create_token settings now sub "refresh" ((settings.REFRESH_TOKEN_DAYS : Int) * 86400)

theorem takeRepl_replicate_append (c d : Char) (hdc : d ≠ c) (n : Nat) (r : List Char) :
    takeRepl c (List.replicate n c ++ d :: r) = (n, d :: r) := by
  induction n with
  | zero => simp [takeRepl, hdc]
  | succ m ih => simp [takeRepl, List.replicate_succ, ih]

theorem fieldDec_fieldEnc (s r : List Char) : fieldDec (fieldEnc s ++ r) = some (s, r) := by
  have h : fieldEnc s ++ r = List.replicate s.length 'L' ++ '.' :: (s ++ r) := by
    simp [fieldEnc]
  rw [h]
  unfold fieldDec
  rw [takeRepl_replicate_append _ _ (by decide)]
  simp [List.take_left, List.drop_left, List.length_append, Nat.le_add_right]

theorem natDec_natEnc (n : Nat) (r : List Char) : natDec (natEnc n ++ r) = some (n, r) := by
  have h : natEnc n ++ r = List.replicate n 'x' ++ '.' :: r := by
    simp [natEnc]
  rw [h]
  unfold natDec
  rw [takeRepl_replicate_append _ _ (by decide)]
  simp

theorem intDec_intEnc (i : Int) (r : List Char) : intDec (intEnc i ++ r) = some (i, r) := by
  cases i with
  | ofNat n => simp [intEnc, intDec, natDec_natEnc]
  | negSucc n => simp [intEnc, intDec, natDec_natEnc]

theorem claimsDec_claimsEnc (c : Claims) (r : List Char) :
    claimsDec (claimsEnc c ++ r) = some (c, r) := by
  have h : claimsEnc c ++ r =
      fieldEnc c.sub.data ++ (fieldEnc c.type.data ++ (natEnc c.iat ++ (intEnc c.exp ++ r))) := by
    simp [claimsEnc]
  rw [h]
  simp [claimsDec, fieldDec_fieldEnc, natDec_natEnc, intDec_intEnc]

theorem claimsDec_claimsEnc_nil (c : Claims) : claimsDec (claimsEnc c) = some (c, []) := by
  have h := claimsDec_claimsEnc c []
  rwa [List.append_nil] at h

theorem jwtDecode_data (c : Claims) (key alg : String) (l : List Char)
    (hl : l = fieldEnc alg.data ++ (claimsEnc c ++ (fieldEnc key.data ++ claimsEnc c))) :
    jwtDecode ⟨l⟩ key alg = some c := by
  subst hl
  simp [jwtDecode, fieldDec_fieldEnc, claimsDec_claimsEnc, claimsDec_claimsEnc_nil]

theorem jwtEncode_decode (c : Claims) (key alg : String) (hk : key ≠ "") :
    ∃ t, jwtEncode c key alg = .ok t ∧ jwtDecode t key alg = some c := by
  refine ⟨⟨fieldEnc alg.data ++ claimsEnc c ++ fieldEnc key.data ++ claimsEnc c⟩, ?_, ?_⟩
  · simp [jwtEncode, hk]
  · exact jwtDecode_data c key alg _ (by simp)

theorem splitFirst_append (sep : Char) (xs ys : List Char) (h : sep ∉ xs) :
    splitFirst sep (xs ++ sep :: ys) = some (xs, ys) := by
  induction xs with
  | nil => simp [splitFirst]
  | cons c cs ih =>
    have hc : ¬ c = sep := fun hh => h (by simp [hh])
    have hcs : sep ∉ cs := fun hh => h (List.mem_cons_of_mem c hh)
    simp [splitFirst, hc, ih hcs]

theorem parseHash_hashString (salt digest : String) (hs : '$' ∉ salt.data) :
    parseHash (hashString salt digest) = some (salt, digest) := by
  have hdata : (hashString salt digest).data = mcfTag ++ (salt.data ++ '$' :: digest.data) := by
    simp [hashString]
  unfold parseHash
  rw [hdata, List.take_left, List.drop_left, splitFirst_append _ _ _ hs]
  simp

theorem parseHash_hash_password (password salt : String) (hs : '$' ∉ salt.data) :
    parseHash (hash_password password salt) = some (salt, argon2 salt password) := by
  unfold hash_password
  exact parseHash_hashString salt (argon2 salt password) hs

theorem argon2_inj_password (salt p q : String) (h : argon2 salt p = argon2 salt q) : p = q := by
  unfold argon2 at h
  have hd : (salt ++ "|").data ++ p.data = (salt ++ "|").data ++ q.data := by
    have := congrArg String.data h
    simpa [String.data_append] using this
  have hpq : p.data = q.data := List.append_cancel_left hd
  cases p
  cases q
  exact congrArg String.mk hpq

theorem verify_hash_self (password salt : String) (hs : '$' ∉ salt.data) :
    verify_password password (hash_password password salt) = .ok true := by
  unfold verify_password
  rw [parseHash_hash_password password salt hs]
  simp

/-- Claim C1: for every password `p`, verifying `p` against the hash
produced for `p` succeeds — `verify_password p (hash_password p salt) = ok true`
for any salt the hashing operation draws (drawn salts are base64 text and
so contain no `$`). -/
theorem hash_then_verify_succeeds (password salt : String) (hs : '$' ∉ salt.data) :
    verify_password password (hash_password password salt) = .ok true :=
  verify_hash_self password salt hs

/-- Concrete instance of `hash_then_verify_succeeds`. -/
theorem hash_then_verify_succeeds_witness :
    verify_password "hunter2" (hash_password "hunter2" "c2FsdA") = .ok true :=
  hash_then_verify_succeeds "hunter2" "c2FsdA" (by decide)

/-- Claim C6: for distinct passwords `p ≠ q`, verifying `p` against a hash
of `q` yields `false` (in the idealized-KDF model, where collision-freedom
stands in for the negligible false-positive rate). -/
theorem verify_wrong_password_false (p q salt : String) (hs : '$' ∉ salt.data) (hpq : p ≠ q) :
    verify_password p (hash_password q salt) = .ok false := by
  unfold verify_password
  rw [parseHash_hash_password q salt hs]
  have hne : argon2 salt p ≠ argon2 salt q := fun hh => hpq (argon2_inj_password salt p q hh)
  simp [hne]

/-- Concrete instance of `verify_wrong_password_false`. -/
theorem verify_wrong_password_false_witness :
    verify_password "alpha" (hash_password "beta" "c2FsdA") = .ok false :=
  verify_wrong_password_false "alpha" "beta" "c2FsdA" (by decide) (by decide)

/-- Claim C7: hashing is deterministic given identical password and salt —
immediate here since the embedding makes the drawn salt an explicit
argument and `hash_password` is a pure function of password and salt —
while two calls on the same password with distinct fresh salts produce two
different hash strings, both of which verify against that password. -/
theorem fresh_salts_distinct_hashes_both_verify (p s1 s2 : String)
    (h1 : '$' ∉ s1.data) (h2 : '$' ∉ s2.data) (hne : s1 ≠ s2) :
    hash_password p s1 ≠ hash_password p s2 ∧
    verify_password p (hash_password p s1) = .ok true ∧
    verify_password p (hash_password p s2) = .ok true := by
  refine ⟨?_, verify_hash_self p s1 h1, verify_hash_self p s2 h2⟩
  intro heq
  have hparse := congrArg parseHash heq
  rw [parseHash_hash_password p s1 h1, parseHash_hash_password p s2 h2] at hparse
  exact hne (congrArg Prod.fst (Option.some.inj hparse))

/-- Concrete instance of `fresh_salts_distinct_hashes_both_verify`. -/
theorem fresh_salts_distinct_hashes_both_verify_witness :
    hash_password "pw" "saltA" ≠ hash_password "pw" "saltB" ∧
    verify_password "pw" (hash_password "pw" "saltA") = .ok true ∧
    verify_password "pw" (hash_password "pw" "saltB") = .ok true :=
  fresh_salts_distinct_hashes_both_verify "pw" "saltA" "saltB" (by decide) (by decide) (by decide)

/-- Claim C4: verification is total on recognized hash encodings — for any
password it returns a boolean (a mismatch is `ok false`, never an error),
and exactly on unrecognized encodings it fails with `MalformedHashError`. -/
theorem verify_password_boolean_or_malformed (password h : String) :
    (WellFormedHash h → ∃ b, verify_password password h = .ok b) ∧
    (¬ WellFormedHash h → verify_password password h = .error .MalformedHashError) := by
  constructor
  · intro hw
    unfold WellFormedHash at hw
    unfold verify_password
    cases hp : parseHash h with
    | none => rw [hp] at hw; simp at hw
    | some pr => exact ⟨_, rfl⟩
  · intro hnw
    unfold WellFormedHash at hnw
    unfold verify_password
    cases hp : parseHash h with
    | none => rfl
    | some pr => rw [hp] at hnw; simp at hnw

/-- Concrete instances of `verify_password_boolean_or_malformed`: a
mismatching password against a real hash gives a boolean, and a junk hash
string gives `MalformedHashError`. -/
theorem verify_password_boolean_or_malformed_witness :
    (∃ b, verify_password "alpha" (hash_password "beta" "c2FsdB") = .ok b) ∧
    verify_password "alpha" "not-a-hash" = .error .MalformedHashError :=
  ⟨(verify_password_boolean_or_malformed "alpha" (hash_password "beta" "c2FsdB")).1 (by decide),
   (verify_password_boolean_or_malformed "alpha" "not-a-hash").2 (by decide)⟩

/-- Claim C2: for every subject, the access and refresh tokens issued at
the same instant are different strings, and decoding each yields claims
whose `exp - iat` equals the configured access lifetime in seconds
(`ACCESS_TOKEN_MINUTES * 60`) and refresh lifetime in seconds
(`REFRESH_TOKEN_DAYS * 86400`) respectively. -/
theorem access_refresh_tokens_distinct_lifetimes (s : Settings) (now : Nat) (sub : String)
    (hk : s.JWT_SECRET_KEY ≠ "") :
    ∃ ta tr ca cr,
      create_access_token s now sub = .ok ta ∧
      create_refresh_token s now sub = .ok tr ∧
      ta ≠ tr ∧
      jwtDecode ta s.JWT_SECRET_KEY s.JWT_ALG = some ca ∧
      jwtDecode tr s.JWT_SECRET_KEY s.JWT_ALG = some cr ∧
      ca.exp - (ca.iat : Int) = (s.ACCESS_TOKEN_MINUTES : Int) * 60 ∧
      cr.exp - (cr.iat : Int) = (s.REFRESH_TOKEN_DAYS : Int) * 86400 := by
  obtain ⟨ta, heA, hdA⟩ :=
    jwtEncode_decode ⟨sub, "access", now, (now : Int) + (s.ACCESS_TOKEN_MINUTES : Int) * 60⟩
      s.JWT_SECRET_KEY s.JWT_ALG hk
  obtain ⟨tr, heR, hdR⟩ :=
    jwtEncode_decode ⟨sub, "refresh", now, (now : Int) + (s.REFRESH_TOKEN_DAYS : Int) * 86400⟩
      s.JWT_SECRET_KEY s.JWT_ALG hk
  refine ⟨ta, tr, _, _, heA, heR, ?_, hdA, hdR, ?_, ?_⟩
  · intro heq
    rw [heq, hdR] at hdA
    have h2 := congrArg Claims.type (Option.some.inj hdA)
    simp at h2
  · show ((now : Int) + (s.ACCESS_TOKEN_MINUTES : Int) * 60) - (now : Int) =
      (s.ACCESS_TOKEN_MINUTES : Int) * 60
    omega
  · show ((now : Int) + (s.REFRESH_TOKEN_DAYS : Int) * 86400) - (now : Int) =
      (s.REFRESH_TOKEN_DAYS : Int) * 86400
    omega

/-- Concrete instance of `access_refresh_tokens_distinct_lifetimes` at the
spec's example configuration (15-minute access, 7-day refresh). -/
theorem access_refresh_tokens_distinct_lifetimes_witness :
    ∃ ta tr ca cr,
      create_access_token ⟨"secret", "HS256", 15, 7⟩ 1700000000 "alice" = .ok ta ∧
      create_refresh_token ⟨"secret", "HS256", 15, 7⟩ 1700000000 "alice" = .ok tr ∧
      ta ≠ tr ∧
      jwtDecode ta "secret" "HS256" = some ca ∧
      jwtDecode tr "secret" "HS256" = some cr ∧
      ca.exp - (ca.iat : Int) = (15 : Int) * 60 ∧
      cr.exp - (cr.iat : Int) = (7 : Int) * 86400 :=
  access_refresh_tokens_distinct_lifetimes ⟨"secret", "HS256", 15, 7⟩ 1700000000 "alice"
    (by decide)

/-- Claim C3: with an absent or empty secret key, `create_token` fails
with `SigningConfigError` for every subject, token kind and lifetime, and
returns no token string. -/
theorem create_token_empty_key_fails (s : Settings) (now : Nat) (sub token_type : String)
    (expires_delta : Int) (hk : s.JWT_SECRET_KEY = "") :
    create_token s now sub token_type expires_delta = .error .SigningConfigError := by
  unfold create_token jwtEncode
  simp [hk]

/-- Concrete instance of `create_token_empty_key_fails`. -/
theorem create_token_empty_key_fails_witness :
    create_token ⟨"", "HS256", 15, 7⟩ 0 "u" "access" 900 = .error .SigningConfigError :=
  create_token_empty_key_fails ⟨"", "HS256", 15, 7⟩ 0 "u" "access" 900 rfl

/-- Claim C5: decoding a token created by `create_token` with the correct
secret key yields claims whose `sub` is the original subject and whose
`type` is the requested kind. -/
theorem decode_created_token_sub_type (s : Settings) (now : Nat) (sub token_type : String)
    (expires_delta : Int) (hk : s.JWT_SECRET_KEY ≠ "") :
    ∃ t c, create_token s now sub token_type expires_delta = .ok t ∧
      jwtDecode t s.JWT_SECRET_KEY s.JWT_ALG = some c ∧
      c.sub = sub ∧ c.type = token_type := by
  obtain ⟨t, he, hd⟩ :=
    jwtEncode_decode ⟨sub, token_type, now, (now : Int) + expires_delta⟩
      s.JWT_SECRET_KEY s.JWT_ALG hk
  exact ⟨t, _, he, hd, rfl, rfl⟩

/-- Concrete instance of `decode_created_token_sub_type`. -/
theorem decode_created_token_sub_type_witness :
    ∃ t c, create_token ⟨"k", "HS256", 15, 7⟩ 5 "bob" "access" 900 = .ok t ∧
      jwtDecode t "k" "HS256" = some c ∧
      c.sub = "bob" ∧ c.type = "access" :=
  decode_created_token_sub_type ⟨"k", "HS256", 15, 7⟩ 5 "bob" "access" 900 (by decide)

/-- Claim C8: every token issued by `create_token` with a positive
lifetime satisfies the claims invariant `exp > iat`, and so do the access
and refresh tokens under positive configured durations. -/
theorem token_exp_gt_iat (s : Settings) (now : Nat) (sub token_type : String)
    (expires_delta : Int) (hk : s.JWT_SECRET_KEY ≠ "") (hdelta : 0 < expires_delta)
    (hmin : 0 < s.ACCESS_TOKEN_MINUTES) (hday : 0 < s.REFRESH_TOKEN_DAYS) :
    (∃ t c, create_token s now sub token_type expires_delta = .ok t ∧
      jwtDecode t s.JWT_SECRET_KEY s.JWT_ALG = some c ∧ (c.iat : Int) < c.exp) ∧
    (∃ t c, create_access_token s now sub = .ok t ∧
      jwtDecode t s.JWT_SECRET_KEY s.JWT_ALG = some c ∧ (c.iat : Int) < c.exp) ∧
    (∃ t c, create_refresh_token s now sub = .ok t ∧
      jwtDecode t s.JWT_SECRET_KEY s.JWT_ALG = some c ∧ (c.iat : Int) < c.exp) := by
  refine ⟨?_, ?_, ?_⟩
  · obtain ⟨t, he, hd⟩ :=
      jwtEncode_decode ⟨sub, token_type, now, (now : Int) + expires_delta⟩
        s.JWT_SECRET_KEY s.JWT_ALG hk
    refine ⟨t, _, he, hd, ?_⟩
    show (now : Int) < (now : Int) + expires_delta
    omega
  · obtain ⟨t, he, hd⟩ :=
      jwtEncode_decode ⟨sub, "access", now, (now : Int) + (s.ACCESS_TOKEN_MINUTES : Int) * 60⟩
        s.JWT_SECRET_KEY s.JWT_ALG hk
    refine ⟨t, _, he, hd, ?_⟩
    show (now : Int) < (now : Int) + (s.ACCESS_TOKEN_MINUTES : Int) * 60
    omega
  · obtain ⟨t, he, hd⟩ :=
      jwtEncode_decode ⟨sub, "refresh", now, (now : Int) + (s.REFRESH_TOKEN_DAYS : Int) * 86400⟩
        s.JWT_SECRET_KEY s.JWT_ALG hk
    refine ⟨t, _, he, hd, ?_⟩
    show (now : Int) < (now : Int) + (s.REFRESH_TOKEN_DAYS : Int) * 86400
    omega

/-- Concrete instance of `token_exp_gt_iat`. -/
theorem token_exp_gt_iat_witness :
    (∃ t c, create_token ⟨"k", "HS256", 15, 7⟩ 100 "u" "access" 900 = .ok t ∧
      jwtDecode t "k" "HS256" = some c ∧ (c.iat : Int) < c.exp) ∧
    (∃ t c, create_access_token ⟨"k", "HS256", 15, 7⟩ 100 "u" = .ok t ∧
      jwtDecode t "k" "HS256" = some c ∧ (c.iat : Int) < c.exp) ∧
    (∃ t c, create_refresh_token ⟨"k", "HS256", 15, 7⟩ 100 "u" = .ok t ∧
      jwtDecode t "k" "HS256" = some c ∧ (c.iat : Int) < c.exp) :=
  token_exp_gt_iat ⟨"k", "HS256", 15, 7⟩ 100 "u" "access" 900
    (by decide) (by decide) (by decide) (by decide)

/-- Claim C9: the wrappers coincide with `create_token` applied at the
fixed kind and configured lifetime, as the spec words them — they add no
logic of their own. -/
theorem wrappers_equal_create_token (s : Settings) (now : Nat) (sub : String) :
    create_access_token s now sub = access_token_spec s now sub ∧
    create_refresh_token s now sub = refresh_token_spec s now sub :=
  ⟨rfl, rfl⟩

/-- Claim C10: `create_token` validates nothing about `token_type` — any
string, recognized kind or not, is embedded verbatim as the `type` claim
of a successfully issued token. -/
theorem create_token_any_type_verbatim (s : Settings) (now : Nat) (sub token_type : String)
    (expires_delta : Int) (hk : s.JWT_SECRET_KEY ≠ "") :
    ∃ t c, create_token s now sub token_type expires_delta = .ok t ∧
      jwtDecode t s.JWT_SECRET_KEY s.JWT_ALG = some c ∧ c.type = token_type := by
  obtain ⟨t, he, hd⟩ :=
    jwtEncode_decode ⟨sub, token_type, now, (now : Int) + expires_delta⟩
      s.JWT_SECRET_KEY s.JWT_ALG hk
  exact ⟨t, _, he, hd, rfl⟩

/-- Concrete instance of `create_token_any_type_verbatim` at an
unrecognized token kind. -/
theorem create_token_any_type_verbatim_witness :
    ∃ t c, create_token ⟨"k", "HS256", 15, 7⟩ 5 "bob" "banana" 900 = .ok t ∧
      jwtDecode t "k" "HS256" = some c ∧ c.type = "banana" :=
  create_token_any_type_verbatim ⟨"k", "HS256", 15, 7⟩ 5 "bob" "banana" 900 (by decide)
